import Mathlib

/-!
Verification of the serial-monitor daemon against its specification.

The definitions below are a shallow embedding of the Python sources of the
daemon (src/daemon/*.py).  Time is modelled in deciseconds (1 ds = 0.1 s) so
that every duration appearing in the code (0.1 s poll, 1.0 s commit interval,
2 s / 5 s retry intervals, 30 s / 600 s retry windows) is an exact natural
number.  Timestamps, stored as ISO-8601 strings by the code, are modelled as
natural numbers; lexicographic order on equally formatted ISO strings agrees
with chronological order, so nothing is lost for ordering claims.  Text is
manipulated as lists of characters so that every string operation is
structurally recursive and computable by the kernel.
-/

namespace SerialTool

/-- Python `str.strip()` on the left edge: drop leading whitespace. -/
def stripChars (l : List Char) : List Char :=
  ((l.dropWhile Char.isWhitespace).reverse.dropWhile Char.isWhitespace).reverse

/-- Python `str.upper()` for the ASCII text handled here. -/
def upperChars (l : List Char) : List Char := l.map Char.toUpper

/-- Python substring containment `needle in hay`. -/
def containsSub : List Char → List Char → Bool
  | _, [] => true
  | [], _ :: _ => false
  | c :: cs, n :: ns => (n :: ns).isPrefixOf (c :: cs) || containsSub cs (n :: ns)

/-- One persisted record of the capture store (a row of the SQLite table
created by `DatabaseManager._init_database`). -/
structure Row where
  id : Nat
  timestamp : Nat
  port : String
  data : String
  session_id : String
deriving DecidableEq, Repr

/-- One pending entry of the in-memory write buffer of
`DatabaseManager.insert` (a tuple `(timestamp, port, data, session_id)`
awaiting its batched commit; no id is assigned yet). -/
structure PendingRow where
  timestamp : Nat
  port : String
  data : String
  session_id : String
deriving DecidableEq, Repr

namespace DatabaseManager

/-- Buffer-size flush threshold: `self.buffer_size = 100` in `__init__`. -/
def buffer_size : Nat := 100

/-- Time-based flush threshold in deciseconds:
`self.commit_interval = 1.0` seconds in `__init__`. -/
def commit_interval : Nat := 10

/-- State of the store: the committed rows of the table in insertion order,
the AUTOINCREMENT counter for the next id, the in-memory write buffer and
the wall-clock time of the last buffered commit (`self.last_commit`). -/
structure DBState where
  rows : List Row
  nextId : Nat
  write_buffer : List PendingRow
  last_commit : Nat
deriving DecidableEq, Repr

/-- Fresh store as created by `_init_database`: empty table, AUTOINCREMENT
starts at 1, empty buffer, `last_commit` set at creation time 0. -/
def dbInit : DBState := ⟨[], 1, [], 0⟩

/-- Committing a list of pending rows assigns consecutive AUTOINCREMENT ids
starting at `n`, in buffer order (SQLite executes the batched INSERT of
`_flush_buffer` in list order inside one transaction). -/
def assignIds (n : Nat) : List PendingRow → List Row
  | [] => []
  | p :: ps => ⟨n, p.timestamp, p.port, p.data, p.session_id⟩ :: assignIds (n + 1) ps

/-- Embedding of `DatabaseManager._flush_buffer` (called with the write lock
held): commit every buffered row in one transaction, clear the buffer and
record the commit time.  An empty buffer is a no-op (the early return). -/
def _flush_buffer (now : Nat) (s : DBState) : DBState :=
  if s.write_buffer = [] then s
  else
    { rows := s.rows ++ assignIds s.nextId s.write_buffer
      nextId := s.nextId + s.write_buffer.length
      write_buffer := []
      last_commit := now }

/-- Embedding of `DatabaseManager.insert`: append the line to the write
buffer, then flush when the buffer holds at least `buffer_size` entries or at
least `commit_interval` has elapsed since the last commit.  `now` is the
value of `time.time()` during the call; `timestamp` is the caller-supplied
timestamp argument. -/
def insert (now timestamp : Nat) (port data session_id : String) (s : DBState) : DBState :=
  let s' := { s with write_buffer := s.write_buffer ++ [⟨timestamp, port, data, session_id⟩] }
  if buffer_size ≤ s'.write_buffer.length ∨ commit_interval ≤ now - s.last_commit then
    _flush_buffer now s'
  else s'

/-- Embedding of `DatabaseManager.insert_immediate`: commit a single row at
once, bypassing the buffer (and leaving `last_commit` untouched — only
`_flush_buffer` updates it). -/
def insert_immediate (timestamp : Nat) (port data session_id : String) (s : DBState) : DBState :=
  { s with
    rows := s.rows ++ [⟨s.nextId, timestamp, port, data, session_id⟩]
    nextId := s.nextId + 1 }

/-- Embedding of `DatabaseManager.flush`: force a buffer flush. -/
def flush (now : Nat) (s : DBState) : DBState := _flush_buffer now s

/-- The forbidden-keyword list of `DatabaseManager.query`, in source order. -/
def forbidden : List (List Char) :=
  ["DELETE".toList, "UPDATE".toList, "INSERT".toList,
   "DROP".toList, "ALTER".toList, "CREATE".toList]

/-- Computation of `sql_upper = sql.strip().upper()` in `query`. -/
def sqlUpper (sql : List Char) : List Char := upperChars (stripChars sql)

/-- The validation gate at the top of `DatabaseManager.query`: strip and
uppercase the statement, require the `SELECT` prefix, then reject on the
first forbidden keyword occurring anywhere in the uppercased text.  Returns
the `ValueError` message when the statement is rejected. -/
def validateQuery (sql : List Char) : Option (List Char) :=
  if ¬ ("SELECT".toList.isPrefixOf (sqlUpper sql)) then
    some "Only SELECT queries allowed".toList
  else
    match forbidden.find? (fun k => containsSub (sqlUpper sql) k) with
    | some k => some ("Query contains forbidden keyword: ".toList ++ k)
    | none => none

/-- Name of the single table created by `_init_database`. -/
def tableName : List Char := "serial_data".toList

/-- Columns of that table, in schema order. -/
def schemaColumns : List String := ["id", "timestamp", "port", "data", "session_id"]

/-- One index of the schema. -/
structure IndexDef where
  name : String
  table : List Char
  columns : List String
deriving DecidableEq, Repr

/-- The four indices created by `_init_database`. -/
def schemaIndexes : List IndexDef :=
  [⟨"idx_timestamp", tableName, ["timestamp"]⟩,
   ⟨"idx_port", tableName, ["port"]⟩,
   ⟨"idx_session", tableName, ["session_id"]⟩,
   ⟨"idx_composite", tableName, ["timestamp", "port"]⟩]

/-- Model of the embedded SQLite engine evaluating a SELECT against the
schema above, for the statement forms the specification exercises: a
`SELECT COUNT(*) FROM t` succeeds with the row count exactly when `t` is the
table of the schema, and fails with the engine error for a missing table
otherwise.  Other SELECT forms are outside the model. -/
def sqliteSelect (rows : List Row) (sql : List Char) : Except (List Char) (List Nat) :=
  match sql.dropPrefix? "SELECT COUNT(*) FROM ".toList with
  | some t =>
      if t = tableName then .ok [rows.length]
      else .error ("no such table: ".toList ++ t)
  | none => .error "SELECT form outside the engine model".toList

/-- Model of the embedded SQLite engine executing one statement: a statement
beginning with SELECT is read-only and never changes the rows; a
`DELETE FROM t` empties the table when `t` is the table of the schema and
fails with a missing-table error otherwise.  Returns the rows after
execution together with the result. -/
def sqliteExec (rows : List Row) (sql : List Char) :
    List Row × Except (List Char) (List Nat) :=
  if "SELECT".toList.isPrefixOf (sqlUpper sql) then (rows, sqliteSelect rows sql)
  else
    match sql.dropPrefix? "DELETE FROM ".toList with
    | some t =>
        if t = tableName then ([], .ok [])
        else (rows, .error ("no such table: ".toList ++ t))
    | none => (rows, .error "statement outside the engine model".toList)

/-- Embedding of `DatabaseManager._cleanup_old_records`: count the rows; if
the count does not exceed `max_records`, return without touching anything;
otherwise delete the rows whose ids are among the `to_delete` smallest
(`DELETE FROM serial_data WHERE id IN (SELECT id FROM serial_data ORDER BY
id ASC LIMIT to_delete)`), modelled by sorting the ids ascending and taking
the first `to_delete` of them.  The subsequent VACUUM only reclaims disk
space and has no effect on the rows. -/
def _cleanup_old_records (max_records : Nat) (s : DBState) : DBState :=
  let current_count := s.rows.length
  if current_count ≤ max_records then s
  else
    let to_delete := current_count - max_records
    let victims := (List.insertionSort (· ≤ ·) (s.rows.map Row.id)).take to_delete
    { s with rows := s.rows.filter (fun r => ! victims.contains r.id) }

/-- Result of `DatabaseManager.query`: the fetched rows, the synchronous
`ValueError` of the validation gate, or an `sqlite3.Error` raised by the
engine. -/
inductive QueryResult where
  | results (rs : List Nat)
  | valueError (msg : List Char)
  | sqlError (msg : List Char)
deriving DecidableEq, Repr

/-- Embedding of `DatabaseManager.query`: validate first and raise the
`ValueError` before anything reaches the connection; only a validated
statement is handed to the engine.  Returns the outcome, the store state
after the call, and the list of statements actually executed on the
connection. -/
def query (s : DBState) (sql : List Char) : QueryResult × DBState × List (List Char) :=
  match validateQuery sql with
  | some msg => (.valueError msg, s, [])
  | none =>
      let (rows', r) := sqliteExec s.rows sql
      (match r with
       | .ok rs => .results rs
       | .error e => .sqlError e,
       { s with rows := rows' }, [sql])

/-- One store operation of an execution trace: a buffered `insert` (with the
`time.time()` value and the caller-supplied timestamp), an
`insert_immediate`, or an explicit `flush`. -/
inductive DBOp where
  | ins (now timestamp : Nat) (port data session_id : String)
  | insImm (timestamp : Nat) (port data session_id : String)
  | fl (now : Nat)
deriving DecidableEq, Repr

/-- Effect of one trace operation on the store. -/
def DBOp.apply : DBOp → DBState → DBState
  | .ins now ts p d sid, s => insert now ts p d sid s
  | .insImm ts p d sid, s => insert_immediate ts p d sid s
  | .fl now, s => flush now s

/-- Running a trace of store operations in order. -/
def runOps (s : DBState) : List DBOp → DBState
  | [] => s
  | op :: rest => runOps (op.apply s) rest

/-- Well-timed traces for the amended C2: wall-clock times never decrease
(`t` is the lower bound for the next operation), a buffered insert stamps
its row with the current time (as `SerialDaemon._on_serial_data` does), and
— the amendment — an immediate insert only happens while the write buffer is
empty. -/
inductive GoodTrace : Nat → DBState → List DBOp → Prop
  | nil (t : Nat) (s : DBState) : GoodTrace t s []
  | ins (t now : Nat) (p d sid : String) (s : DBState) (rest : List DBOp)
      (hle : t ≤ now)
      (hrest : GoodTrace now (DBOp.apply (.ins now now p d sid) s) rest) :
      GoodTrace t s (.ins now now p d sid :: rest)
  | imm (t now : Nat) (p d sid : String) (s : DBState) (rest : List DBOp)
      (hle : t ≤ now) (hbuf : s.write_buffer = [])
      (hrest : GoodTrace now (DBOp.apply (.insImm now p d sid) s) rest) :
      GoodTrace t s (.insImm now p d sid :: rest)
  | fl (t now : Nat) (s : DBState) (rest : List DBOp)
      (hle : t ≤ now)
      (hrest : GoodTrace now (DBOp.apply (.fl now) s) rest) :
      GoodTrace t s (.fl now :: rest)

/-- Store invariant carried along a well-timed trace: committed rows are
strictly increasing in id and non-decreasing in timestamp, all ids are below
the AUTOINCREMENT counter and all timestamps are at most the current time,
the buffer timestamps are non-decreasing and bounded by the current time,
and no committed row is stamped later than any pending buffered row. -/
def Inv (t : Nat) (s : DBState) : Prop :=
  s.rows.Pairwise (fun a b => a.id < b.id ∧ a.timestamp ≤ b.timestamp) ∧
  (∀ r ∈ s.rows, r.id < s.nextId ∧ r.timestamp ≤ t) ∧
  s.write_buffer.Pairwise (fun a b => a.timestamp ≤ b.timestamp) ∧
  (∀ p ∈ s.write_buffer, p.timestamp ≤ t) ∧
  (∀ r ∈ s.rows, ∀ p ∈ s.write_buffer, r.timestamp ≤ p.timestamp)

end DatabaseManager

/-- The SELECT statement with a column alias containing a forbidden keyword,
used to settle C10. -/
def aliasSelectSql : List Char := "SELECT data AS dropped FROM serial_data".toList

namespace DatabaseManager

/-- Has the cancellation event been set by time `now`
(`threading.Event.is_set`)?  `cancelAt` is the instant at which shutdown
sets the stop event, `none` when no shutdown is requested. -/
def isSetAt (cancelAt : Option Nat) (now : Nat) : Bool :=
  match cancelAt with
  | some c => c ≤ now
  | none => false

/-- Model of `threading.Event.wait(timeout)` started at `now`: returns
whether the event was observed set, and the wake-up time — the moment the
event is set when that happens within the timeout, the full timeout
otherwise.  This wait is cancellable: setting the event wakes it at once. -/
def eventWait (cancelAt : Option Nat) (now timeout : Nat) : Bool × Nat :=
  match cancelAt with
  | some c => if c ≤ now + timeout then (true, max now c) else (false, now + timeout)
  | none => (false, now + timeout)

/-- Embedding of the retention thread body `DatabaseManager._cleanup_task`:
while the stop event is not set, wait `cleanup_interval` on the event
(breaking out when the wait reports the event set), otherwise run one
cleanup pass and loop.  Returns the exit time of the loop and the times at
which cleanup passes ran; `fuel` bounds the number of iterations modelled. -/
def _cleanup_task (cancelAt : Option Nat) (cleanup_interval : Nat) :
    Nat → Nat → Nat × List Nat
  | 0, now => (now, [])
  | fuel + 1, now =>
    if isSetAt cancelAt now then (now, [])
    else
      let w := eventWait cancelAt now cleanup_interval
      if w.1 then (w.2, [])
      else
        let r := _cleanup_task cancelAt cleanup_interval fuel w.2
        (r.1, w.2 :: r.2)

end DatabaseManager

namespace SerialHandler

/-- Stage-1 retry cadence in deciseconds:
`self.rapid_retry_interval = 2.0` seconds. -/
def rapid_retry_interval : Nat := 20

/-- Stage-2 retry cadence in deciseconds:
`self.slow_retry_interval = 5.0` seconds. -/
def slow_retry_interval : Nat := 50

/-- The two configurable stage durations (constructor arguments of
`SerialHandler`), in deciseconds. -/
structure RetryParams where
  rapid_retry_duration : Nat
  slow_retry_duration : Nat
deriving DecidableEq, Repr

/-- Default durations: 30 s of rapid retries, 600 s of slow retries. -/
def defaultRetryParams : RetryParams := ⟨300, 6000⟩

/-- Environment of the reconnection loop: the `self.running` flag, the
serial devices enumerated by `serial.tools.list_ports.comports()` and the
success of `self.connect()`, each as observed at a given instant. -/
structure SerialEnv where
  runningAt : Nat → Bool
  portsAt : Nat → List String
  connectOk : Nat → Bool

/-- Environment of a shutdown scenario: `running` is cleared at instant `c`,
no serial device is ever present and no open succeeds. -/
def cancelEnv (c : Nat) : SerialEnv :=
  ⟨fun t => decide (t < c), fun _ => [], fun _ => false⟩

/-- How one call of `SerialHandler._attempt_reconnect` returns: a restored
connection (the `CONNECTION_RESTORED` event carries the elapsed time and the
attempt count), permanent failure (the `CONNECTION_FAILED_PERMANENT` event,
after which the read loop breaks and the reader terminates), an abort
because `self.running` was cleared, or exhaustion of the modelling fuel. -/
inductive ReconnectOutcome where
  | restored (elapsed attempts : Nat)
  | failedPermanent (elapsed attempts : Nat)
  | aborted
  | fuelExhausted
deriving DecidableEq, Repr

/-- Trace of one `_attempt_reconnect` call: its outcome, the time at which
the call returned, the times at which loop iterations ran (each enumerating
the serial devices), and the times at which `open()` was actually
attempted. -/
structure ReconnectResult where
  outcome : ReconnectOutcome
  exitTime : Nat
  checks : List Nat
  openAttempts : List Nat
deriving DecidableEq, Repr

/-- Embedding of `SerialHandler._attempt_reconnect`, entered at time `t0`
(the code stores `t0` in `self.reconnect_start_time`).  Each iteration first
checks `self.running`, then computes the elapsed time: inside the rapid
window the retry interval is 2 s, inside the slow window 5 s, and past both
windows the loop gives up with `CONNECTION_FAILED_PERMANENT` (the two
in-window branches of the code are identical except for the interval, so
they are merged here with the interval selected by the same test).  An
iteration increments the attempt counter, enumerates the serial devices,
attempts `open()` only when the target port is listed, returns restored on
success, and otherwise sleeps the retry interval (a plain `time.sleep`, not
a cancellable wait) before the next iteration. -/
def _attempt_reconnect (env : SerialEnv) (p : RetryParams) (port : String) (t0 : Nat) :
    Nat → Nat → Nat → ReconnectResult
  | 0, now, _ => ⟨.fuelExhausted, now, [], []⟩
  | fuel + 1, now, attempts =>
    if env.runningAt now then
      if now - t0 < p.rapid_retry_duration + p.slow_retry_duration then
        let interval :=
          if now - t0 < p.rapid_retry_duration then rapid_retry_interval
          else slow_retry_interval
        let attempts' := attempts + 1
        if port ∈ env.portsAt now then
          if env.connectOk now then
            ⟨.restored (now - t0) attempts', now, [now], [now]⟩
          else
            let r := _attempt_reconnect env p port t0 fuel (now + interval) attempts'
            ⟨r.outcome, r.exitTime, now :: r.checks, now :: r.openAttempts⟩
        else
          let r := _attempt_reconnect env p port t0 fuel (now + interval) attempts'
          ⟨r.outcome, r.exitTime, now :: r.checks, r.openAttempts⟩
      else ⟨.failedPermanent (now - t0) attempts, now, [], []⟩
    else ⟨.aborted, now, [], []⟩

/-- The retry schedule prescribed by the specification: starting from `now`,
iterate every 2 s while inside the rapid window and every 5 s while inside
the slow window, stopping once both windows are exhausted. -/
def scheduleTimes (p : RetryParams) (t0 : Nat) : Nat → Nat → List Nat
  | 0, _ => []
  | fuel + 1, now =>
    if now - t0 < p.rapid_retry_duration + p.slow_retry_duration then
      let interval :=
        if now - t0 < p.rapid_retry_duration then rapid_retry_interval
        else slow_retry_interval
      now :: scheduleTimes p t0 fuel (now + interval)
    else []

/-- The instant at which the schedule above is exhausted. -/
def scheduleEnd (p : RetryParams) (t0 : Nat) : Nat → Nat → Nat
  | 0, now => now
  | fuel + 1, now =>
    if now - t0 < p.rapid_retry_duration + p.slow_retry_duration then
      let interval :=
        if now - t0 < p.rapid_retry_duration then rapid_retry_interval
        else slow_retry_interval
      scheduleEnd p t0 fuel (now + interval)
    else now

end SerialHandler

namespace DaemonMCPTools

/-- One entry of `serial.tools.list_ports.comports()` as consumed by
`find_pico_ports`: the device name plus the optional USB metadata. -/
structure PortInfo where
  device : String
  description : Option String
  manufacturer : Option String
  vid : Option Nat
  pid : Option Nat
deriving DecidableEq, Repr

/-- The per-device detection test of `find_pico_ports`: vendor id `0x2E8A`
with product id `0x0005`, else a manufacturer containing `Raspberry Pi`,
else a description containing `Pico` or `RP2`. -/
def is_pico (q : PortInfo) : Bool :=
  if q.vid = some 0x2E8A ∧ q.pid = some 0x0005 then true
  else if (match q.manufacturer with
           | some m => containsSub m.toList "Raspberry Pi".toList
           | none => false) then true
  else
    match q.description with
    | some d => containsSub d.toList "Pico".toList || containsSub d.toList "RP2".toList
    | none => false

/-- Embedding of `find_pico_ports`: the device names of the matching
entries, in enumeration order. -/
def find_pico_ports (ports : List PortInfo) : List String :=
  (ports.filter is_pico).map PortInfo.device

/-- What the client-side `DaemonMCPTools.connect_port` does after its
health check: either return an error result without sending anything to the
daemon (so the daemon state is untouched), or send the `connect` command for
a definite port. -/
inductive ConnectAction where
  | errorResult (error : String) (picoPorts : List String)
  | sendConnect (port : String) (baudrate : Nat)
deriving DecidableEq, Repr

/-- Embedding of `DaemonMCPTools.connect_port`: when the daemon is not
healthy, fail with `DAEMON_NOT_RUNNING`; when a port is given, send the
command directly; when the port is omitted, auto-detect — zero candidates
give `NO_PICO_FOUND`, exactly one proceeds with that device, several give
`MULTIPLE_PICOS` with the candidate list.  Only `sendConnect` reaches the
daemon. -/
def connect_port (daemonHealthy : Bool) (ports : List PortInfo)
    (port : Option String) (baudrate : Nat) : ConnectAction :=
  if ¬ daemonHealthy then .errorResult "DAEMON_NOT_RUNNING" []
  else
    match port with
    | some pt => .sendConnect pt baudrate
    | none =>
      let pico_ports := find_pico_ports ports
      if pico_ports.length = 0 then .errorResult "NO_PICO_FOUND" []
      else if pico_ports.length = 1 then .sendConnect pico_ports.headI baudrate
      else .errorResult "MULTIPLE_PICOS" pico_ports

end DaemonMCPTools

namespace SerialDaemon

/-- The port the daemon-side `connect` branch of `_process_commands` uses:
`cmd.get('port', 'COM9')` — an omitted port silently defaults to `COM9`;
the daemon itself never enumerates devices. -/
def connectCommandPort (cmdPort : Option String) : String := cmdPort.getD "COM9"

/-- Response of the daemon-side `connect` branch of `_process_commands`. -/
structure ConnectResponse where
  success : Bool
  port : Option String
  baudrate : Option Nat
  error : Option String
deriving DecidableEq, Repr

/-- Embedding of the `connect` branch of `SerialDaemon._process_commands`:
read the port (defaulting to `COM9`) and the baudrate (defaulting to
115200), call `connect_port`, and reply with success, port and baudrate on
success or nulls on failure — the reply never carries an `error` field. -/
def handleConnect (connectSucceeded : Bool) (cmdPort : Option String)
    (cmdBaudrate : Option Nat) : ConnectResponse :=
  let port := connectCommandPort cmdPort
  let baudrate := cmdBaudrate.getD 115200
  { success := connectSucceeded
    port := if connectSucceeded then some port else none
    baudrate := if connectSucceeded then some baudrate else none
    error := none }

/-- JSON-like values of command responses. -/
inductive JVal where
  | jnull
  | jbool (b : Bool)
  | jnat (n : Nat)
  | jstr (s : String)
  | jobj (fields : List (String × JVal))

/-- The daemon state read by `SerialDaemon.get_status`. -/
structure DaemonState where
  running : Bool
  monitoring : Bool
  current_port : Option String
  current_baudrate : Option Nat
  session_id : String

/-- Embedding of `SerialDaemon.get_status`: the dictionary it builds has
exactly the five keys below. -/
def get_status (d : DaemonState) : List (String × JVal) :=
  [("running", .jbool d.running),
   ("monitoring", .jbool d.monitoring),
   ("port", match d.current_port with | some p => .jstr p | none => .jnull),
   ("baudrate", match d.current_baudrate with | some b => .jnat b | none => .jnull),
   ("session_id", .jstr d.session_id)]

/-- The reply of the `status` branch of `_process_commands`:
`{'success': True, 'status': get_status()}`. -/
def statusResponse (d : DaemonState) : List (String × JVal) :=
  [("success", .jbool true), ("status", .jobj (get_status d))]

end SerialDaemon

namespace DaemonCommands

/-- The two transport files of the file-based command channel, `none` when
the file is absent from disk and `some` its JSON payload otherwise. -/
structure TransportFiles where
  command_file : Option String
  response_file : Option String
deriving DecidableEq, Repr

/-- Embedding of `DaemonCommands.check_for_command` (daemon side): read the
command file if present; the file is not deleted. -/
def check_for_command (fs : TransportFiles) : Option String := fs.command_file

/-- Embedding of `DaemonCommands.send_response` (daemon side): write the
response file; nothing is deleted. -/
def send_response (fs : TransportFiles) (resp : String) : TransportFiles :=
  { fs with response_file := some resp }

/-- One daemon poll tick of `SerialDaemon._process_commands` over the
transport files: if a command is pending, handle it and write the reply
(`handle` abstracts the command dispatch). -/
def processTick (handle : String → String) (fs : TransportFiles) : TransportFiles :=
  match check_for_command fs with
  | none => fs
  | some cmd => send_response fs (handle cmd)

/-- The success path of the polling loop in `DaemonCommands.send_command`
(client side): once the response file exists, read it, then unlink the
response file and the command file. -/
def receive_response (fs : TransportFiles) : Option (String × TransportFiles) :=
  match fs.response_file with
  | some r => some (r, ⟨none, none⟩)
  | none => none

end DaemonCommands

end SerialTool

namespace SerialTool

namespace DatabaseManager

theorem mem_assignIds {q : Row} :
    ∀ (n : Nat) (l : List PendingRow), q ∈ assignIds n l →
      n ≤ q.id ∧ q.id < n + l.length ∧ ∃ p ∈ l, q.timestamp = p.timestamp := by
  intro n l
  induction l generalizing n with
  | nil => intro h; cases h
  | cons p ps ih =>
    intro h
    rcases List.mem_cons.mp h with h | h
    · subst h
      exact ⟨Nat.le_refl _, by simp [Nat.lt_add_of_pos_right, Nat.succ_pos], p,
        List.mem_cons_self .., rfl⟩
    · rcases ih (n + 1) h with ⟨h1, h2, p', hp', hts⟩
      refine ⟨Nat.le_of_succ_le h1, ?_, p', List.mem_cons_of_mem _ hp', hts⟩
      simpa [Nat.add_comm, Nat.add_assoc, Nat.add_left_comm] using h2

theorem assignIds_pairwise :
    ∀ (n : Nat) (l : List PendingRow),
      l.Pairwise (fun a b => a.timestamp ≤ b.timestamp) →
      (assignIds n l).Pairwise (fun a b => a.id < b.id ∧ a.timestamp ≤ b.timestamp) := by
  intro n l
  induction l generalizing n with
  | nil => intro _; exact List.Pairwise.nil
  | cons p ps ih =>
    intro h
    rcases List.pairwise_cons.mp h with ⟨hp, hps⟩
    refine List.pairwise_cons.mpr ⟨?_, ih (n + 1) hps⟩
    intro q hq
    rcases mem_assignIds (n + 1) ps hq with ⟨h1, _, p', hp', hts⟩
    exact ⟨Nat.lt_of_succ_le h1, by rw [hts]; exact hp p' hp'⟩

theorem inv_mono {t t' : Nat} {s : DBState} (h : t ≤ t') : Inv t s → Inv t' s := by
  rintro ⟨h1, h2, h3, h4, h5⟩
  exact ⟨h1, fun r hr => ⟨(h2 r hr).1, Nat.le_trans (h2 r hr).2 h⟩, h3,
    fun p hp => Nat.le_trans (h4 p hp) h, h5⟩

theorem inv_flush_buffer {t now : Nat} {s : DBState} (hle : t ≤ now) :
    Inv t s → Inv now (_flush_buffer now s) := by
  rintro ⟨h1, h2, h3, h4, h5⟩
  unfold _flush_buffer
  by_cases hbuf : s.write_buffer = []
  · rw [if_pos hbuf]
    exact inv_mono hle ⟨h1, h2, h3, h4, h5⟩
  · rw [if_neg hbuf]
    refine ⟨?_, ?_, List.Pairwise.nil, by simp, by simp⟩
    · rw [List.pairwise_append]
      refine ⟨h1, assignIds_pairwise s.nextId s.write_buffer h3, ?_⟩
      intro a ha b hb
      rcases mem_assignIds s.nextId s.write_buffer hb with ⟨hb1, _, p', hp', hts⟩
      exact ⟨Nat.lt_of_lt_of_le (h2 a ha).1 hb1, by rw [hts]; exact h5 a ha p' hp'⟩
    · intro r hr
      rcases List.mem_append.mp hr with hr | hr
      · exact ⟨Nat.lt_of_lt_of_le (h2 r hr).1 (Nat.le_add_right _ _),
          Nat.le_trans (h2 r hr).2 hle⟩
      · rcases mem_assignIds s.nextId s.write_buffer hr with ⟨_, h2', p', hp', hts⟩
        exact ⟨h2', by rw [hts]; exact Nat.le_trans (h4 p' hp') hle⟩

theorem inv_insert {t now : Nat} {p d sid : String} {s : DBState} (hle : t ≤ now) :
    Inv t s → Inv now (insert now now p d sid s) := by
  intro hinv
  have hs' : Inv now
      { s with write_buffer := s.write_buffer ++ [⟨now, p, d, sid⟩] } := by
    rcases hinv with ⟨h1, h2, h3, h4, h5⟩
    refine ⟨h1, fun r hr => ⟨(h2 r hr).1, Nat.le_trans (h2 r hr).2 hle⟩, ?_, ?_, ?_⟩
    · rw [List.pairwise_append]
      exact ⟨h3, List.pairwise_singleton _ _,
        fun a ha b hb => by
          rw [List.mem_singleton.mp hb]
          exact Nat.le_trans (h4 a ha) hle⟩
    · intro q hq
      rcases List.mem_append.mp hq with hq | hq
      · exact Nat.le_trans (h4 q hq) hle
      · rw [List.mem_singleton.mp hq]
    · intro r hr q hq
      rcases List.mem_append.mp hq with hq | hq
      · exact h5 r hr q hq
      · rw [List.mem_singleton.mp hq]
        exact Nat.le_trans (h2 r hr).2 hle
  unfold insert
  by_cases hc : buffer_size ≤ (s.write_buffer ++ [(⟨now, p, d, sid⟩ : PendingRow)]).length ∨
      commit_interval ≤ now - s.last_commit
  · simp only [hc, if_true]
    exact inv_flush_buffer (Nat.le_refl now) hs'
  · simp only [hc, if_false]
    exact hs'

theorem inv_insert_immediate {t now : Nat} {p d sid : String} {s : DBState}
    (hle : t ≤ now) (hbuf : s.write_buffer = []) :
    Inv t s → Inv now (insert_immediate now p d sid s) := by
  rintro ⟨h1, h2, _, _, _⟩
  unfold insert_immediate
  refine ⟨?_, ?_, by rw [hbuf]; exact List.Pairwise.nil, by rw [hbuf]; simp,
    by rw [hbuf]; simp⟩
  · rw [List.pairwise_append]
    refine ⟨h1, List.pairwise_singleton _ _, ?_⟩
    intro a ha b hb
    rw [List.mem_singleton.mp hb]
    exact ⟨(h2 a ha).1, Nat.le_trans (h2 a ha).2 hle⟩
  · intro r hr
    rcases List.mem_append.mp hr with hr | hr
    · exact ⟨Nat.lt_succ_of_lt (h2 r hr).1, Nat.le_trans (h2 r hr).2 hle⟩
    · rw [List.mem_singleton.mp hr]
      exact ⟨Nat.lt_succ_self _, Nat.le_refl _⟩

theorem goodTrace_inv {t : Nat} {s : DBState} {ops : List DBOp}
    (hg : GoodTrace t s ops) (hinv : Inv t s) :
    (runOps s ops).rows.Pairwise
      (fun a b => a.id < b.id ∧ a.timestamp ≤ b.timestamp) := by
  induction hg with
  | nil t s => exact hinv.1
  | ins t now p d sid s rest hle _ ih =>
      exact ih (inv_insert hle hinv)
  | imm t now p d sid s rest hle hbuf _ ih =>
      exact ih (inv_insert_immediate hle hbuf hinv)
  | fl t now s rest hle _ ih =>
      exact ih (inv_flush_buffer hle hinv)

theorem pairwise_id_timestamp {rows : List Row}
    (h : rows.Pairwise (fun a b => a.id < b.id ∧ a.timestamp ≤ b.timestamp)) :
    ∀ a ∈ rows, ∀ b ∈ rows, a.id < b.id → a.timestamp ≤ b.timestamp := by
  induction rows with
  | nil => intro a ha; cases ha
  | cons r rs ih =>
    have hr := (List.pairwise_cons.mp h).1
    have hrs := (List.pairwise_cons.mp h).2
    intro a ha b hb hab
    rcases List.mem_cons.mp ha with rfl | ha1
    · rcases List.mem_cons.mp hb with rfl | hb1
      · exact absurd hab (Nat.lt_irrefl _)
      · exact (hr b hb1).2
    · rcases List.mem_cons.mp hb with rfl | hb1
      · exact absurd (Nat.lt_trans (hr a ha1).1 hab) (Nat.lt_irrefl _)
      · exact ih hrs a ha1 b hb1 hab

end DatabaseManager

end SerialTool

namespace SerialTool

open DatabaseManager
open DaemonMCPTools in
/-- C4 counterexample: with zero candidate devices on the host and a
`connect` command whose port field is omitted, the daemon does not
auto-detect and does not answer `NO_PICO_FOUND`: its handler silently
targets the default `COM9` and its reply carries no error field at all
(auto-detection lives in the client tool layer, not in the daemon). -/
theorem daemon_connect_no_autodetect_cex :
    find_pico_ports [] = [] ∧
    SerialDaemon.connectCommandPort none = "COM9" ∧
    (SerialDaemon.handleConnect false none none).error = none ∧
    (SerialDaemon.handleConnect true none none).port = some "COM9" := by
  refine ⟨rfl, rfl, rfl, rfl⟩

open DaemonMCPTools in
/-- C4 as amended: auto-detection runs in the client tool
`DaemonMCPTools.connect_port` before any command is sent, scoring devices by
vendor/product id `0x2E8A`/`0x0005`, manufacturer containing
`Raspberry Pi`, or description containing `Pico` or `RP2`; with the daemon
healthy and the port omitted, zero candidates yield `NO_PICO_FOUND` and
more than one yield `MULTIPLE_PICOS` with the candidate list — in both
error cases no command reaches the daemon, so its state is unaltered —
while exactly one candidate proceeds to a `connect` command for that
device.  The daemon itself, given a `connect` command with the port
omitted, defaults it to `COM9` and never replies with a detection error. -/
theorem connect_autodetect_client_side (ports : List PortInfo) (baudrate : Nat) :
    (∀ q : PortInfo, is_pico q = true ↔
      (q.vid = some 0x2E8A ∧ q.pid = some 0x0005) ∨
      (∃ m, q.manufacturer = some m ∧
        containsSub m.toList "Raspberry Pi".toList = true) ∨
      (∃ d, q.description = some d ∧
        (containsSub d.toList "Pico".toList = true ∨
         containsSub d.toList "RP2".toList = true))) ∧
    (find_pico_ports ports = [] →
      connect_port true ports none baudrate = .errorResult "NO_PICO_FOUND" []) ∧
    (∀ pt, find_pico_ports ports = [pt] →
      connect_port true ports none baudrate = .sendConnect pt baudrate) ∧
    (2 ≤ (find_pico_ports ports).length →
      connect_port true ports none baudrate =
        .errorResult "MULTIPLE_PICOS" (find_pico_ports ports)) ∧
    (∀ (ok : Bool) (cmdPort : Option String) (bd : Option Nat),
      (SerialDaemon.handleConnect ok cmdPort bd).error = none) ∧
    SerialDaemon.connectCommandPort none = "COM9" := by
  refine ⟨?_, ?_, ?_, ?_, fun ok cmdPort bd => rfl, rfl⟩
  · intro q
    constructor
    · intro h
      unfold is_pico at h
      split_ifs at h with h1 h2
      · exact Or.inl h1
      · cases hm : q.manufacturer with
        | none => rw [hm] at h2; cases h2
        | some m => rw [hm] at h2; exact Or.inr (Or.inl ⟨m, rfl, h2⟩)
      · cases hd : q.description with
        | none => rw [hd] at h; cases h
        | some d =>
            rw [hd] at h
            exact Or.inr (Or.inr ⟨d, rfl, Bool.or_eq_true_iff.mp h⟩)
    · intro h
      unfold is_pico
      split_ifs with h1 h2
      · rfl
      · rfl
      · rcases h with h | ⟨m, hm, hc⟩ | ⟨d, hd, hc⟩
        · exact absurd h h1
        · rw [hm] at h2; exact absurd hc h2
        · rw [hd]; exact Bool.or_eq_true_iff.mpr hc
  · intro h
    unfold connect_port
    rw [h]
    rfl
  · intro pt h
    unfold connect_port
    rw [h]
    rfl
  · intro h
    unfold connect_port
    have h0 : ¬ ((find_pico_ports ports).length = 0) := by omega
    have h1 : ¬ ((find_pico_ports ports).length = 1) := by omega
    simp [h0, h1]

open DaemonMCPTools in
/-- Witness for C4 as amended: a host with a single device whose
description contains `Pico` makes the client send `connect` for it. -/
theorem connect_autodetect_client_side_witness :
    find_pico_ports [⟨"COM9", some "Pico W Serial", none, none, none⟩] = ["COM9"] ∧
    connect_port true [⟨"COM9", some "Pico W Serial", none, none, none⟩] none 115200 =
      .sendConnect "COM9" 115200 := by
  refine ⟨by decide, ?_⟩
  exact (connect_autodetect_client_side
    [⟨"COM9", some "Pico W Serial", none, none, none⟩] 115200).2.2.1 "COM9" (by decide)

/-- C8 counterexample: at a concrete daemon state, the `status` reply's
status object has exactly the five keys `running`, `monitoring`, `port`,
`baudrate`, `session_id` — the fields `pid`, `start_time`, `uptime` and
`lines_captured` claimed by the specification are absent. -/
theorem status_reply_missing_fields_cex :
    (SerialDaemon.statusResponse ⟨true, false, none, none, "sess"⟩).map Prod.fst =
      ["success", "status"] ∧
    (SerialDaemon.get_status ⟨true, false, none, none, "sess"⟩).map Prod.fst =
      ["running", "monitoring", "port", "baudrate", "session_id"] ∧
    ¬ "pid" ∈ (SerialDaemon.get_status ⟨true, false, none, none, "sess"⟩).map Prod.fst ∧
    ¬ "start_time" ∈
      (SerialDaemon.get_status ⟨true, false, none, none, "sess"⟩).map Prod.fst ∧
    ¬ "uptime" ∈ (SerialDaemon.get_status ⟨true, false, none, none, "sess"⟩).map Prod.fst ∧
    ¬ "lines_captured" ∈
      (SerialDaemon.get_status ⟨true, false, none, none, "sess"⟩).map Prod.fst := by
  refine ⟨rfl, rfl, by decide, by decide, by decide, by decide⟩

/-- C8 as amended: for every daemon state, the reply to `status` is
`{success: true, status: …}` whose status object carries exactly
`running : bool`, `monitoring : bool`, `port : string|null`,
`baudrate : int|null` and `session_id : string` with the daemon's values;
`pid`, `start_time`, `uptime` and `lines_captured` do not appear (those are
produced by the client-side status tool from the PID file and the
database, not by the daemon's command reply). -/
theorem status_reply_fields (d : SerialDaemon.DaemonState) :
    (SerialDaemon.statusResponse d).map Prod.fst = ["success", "status"] ∧
    (SerialDaemon.statusResponse d).lookup "status" =
      some (.jobj (SerialDaemon.get_status d)) ∧
    (SerialDaemon.get_status d).map Prod.fst =
      ["running", "monitoring", "port", "baudrate", "session_id"] ∧
    (SerialDaemon.get_status d).lookup "running" = some (.jbool d.running) ∧
    (SerialDaemon.get_status d).lookup "monitoring" = some (.jbool d.monitoring) ∧
    (SerialDaemon.get_status d).lookup "session_id" = some (.jstr d.session_id) ∧
    (SerialDaemon.get_status d).lookup "port" =
      some (match d.current_port with | some p => .jstr p | none => .jnull) ∧
    (SerialDaemon.get_status d).lookup "baudrate" =
      some (match d.current_baudrate with | some b => .jnat b | none => .jnull) ∧
    ¬ "pid" ∈ (SerialDaemon.get_status d).map Prod.fst ∧
    ¬ "start_time" ∈ (SerialDaemon.get_status d).map Prod.fst ∧
    ¬ "uptime" ∈ (SerialDaemon.get_status d).map Prod.fst ∧
    ¬ "lines_captured" ∈ (SerialDaemon.get_status d).map Prod.fst := by
  have hkeys : (SerialDaemon.get_status d).map Prod.fst =
      ["running", "monitoring", "port", "baudrate", "session_id"] := rfl
  refine ⟨rfl, rfl, rfl, rfl, rfl, rfl, rfl, rfl, ?_, ?_, ?_, ?_⟩ <;>
    · rw [hkeys]; decide

open DaemonCommands in
/-- C9 counterexample: after the daemon has replied to a pending command,
both transport files are still on disk — the command file it polled and the
response file it just wrote — contradicting the claim that the daemon
leaves neither file. -/
theorem daemon_reply_leaves_files_cex :
    processTick (fun _ => "resp") ⟨some "cmd", none⟩ =
      ⟨some "cmd", some "resp"⟩ ∧
    ¬ ((processTick (fun _ => "resp") ⟨some "cmd", none⟩).command_file = none ∧
       (processTick (fun _ => "resp") ⟨some "cmd", none⟩).response_file = none) := by
  exact ⟨rfl, by simp [processTick, check_for_command, send_response]⟩

open DaemonCommands in
/-- C9 as amended: the daemon deletes neither transport file — after
handling a pending command it leaves the command file in place and writes
the response file; it is the client's `send_command` that, upon reading the
response, unlinks both files, so a full round trip ends with neither file
on disk. -/
theorem transport_files_roundtrip (fs : TransportFiles) (handle : String → String)
    (cmd : String) (h : fs.command_file = some cmd) :
    (processTick handle fs).command_file = some cmd ∧
    (processTick handle fs).response_file = some (handle cmd) ∧
    receive_response (processTick handle fs) =
      some (handle cmd, ⟨none, none⟩) := by
  simp [processTick, check_for_command, send_response, receive_response, h]

open DaemonCommands in
/-- Witness for C9 as amended at a concrete file state and handler. -/
theorem transport_files_roundtrip_witness :
    ((⟨some "c", none⟩ : TransportFiles).command_file = some "c") ∧
    (processTick (fun _ => "r") ⟨some "c", none⟩).command_file = some "c" ∧
    (processTick (fun _ => "r") ⟨some "c", none⟩).response_file = some "r" ∧
    receive_response (processTick (fun _ => "r") ⟨some "c", none⟩) =
      some ("r", ⟨none, none⟩) :=
  ⟨rfl, transport_files_roundtrip ⟨some "c", none⟩ (fun _ => "r") "c" rfl⟩

/-- C1: any statement that does not begin with SELECT after stripping and
uppercasing, or that contains one of the six forbidden keywords, makes
`query` raise the synchronous `ValueError` of the validation gate, with the
store unchanged and no statement executed on the connection. -/
theorem query_rejects_unsafe_sql (sql : List Char) (s : DBState)
    (h : ¬ ("SELECT".toList.isPrefixOf (sqlUpper sql) = true) ∨
         ∃ k ∈ forbidden, containsSub (sqlUpper sql) k = true) :
    ∃ msg, query s sql = (.valueError msg, s, []) := by
  unfold query validateQuery
  rcases h with h | ⟨k, hk, hck⟩
  · simp only [h]
    exact ⟨_, rfl⟩
  · have hfind : (forbidden.find? (fun k => containsSub (sqlUpper sql) k)).isSome := by
      rw [List.find?_isSome]
      exact ⟨k, hk, hck⟩
    rcases Option.isSome_iff_exists.mp hfind with ⟨k', hk'⟩
    rw [hk']
    by_cases hsel : "SELECT".toList.isPrefixOf (sqlUpper sql) = true
    · simp only [hsel]
      exact ⟨_, rfl⟩
    · simp only [hsel]
      exact ⟨_, rfl⟩

/-- Witness for C1 at the statement of the specification scenario:
`DELETE FROM captured` is rejected synchronously and the store is unchanged. -/
theorem query_rejects_unsafe_sql_witness :
    (¬ ("SELECT".toList.isPrefixOf (sqlUpper "DELETE FROM captured".toList) = true) ∨
      ∃ k ∈ forbidden, containsSub (sqlUpper "DELETE FROM captured".toList) k = true) ∧
    ∃ msg, query dbInit "DELETE FROM captured".toList = (.valueError msg, dbInit, []) := by
  refine ⟨Or.inr ⟨"DELETE".toList, by decide, by decide⟩, ?_⟩
  exact query_rejects_unsafe_sql "DELETE FROM captured".toList dbInit
    (Or.inr ⟨"DELETE".toList, by decide, by decide⟩)

/-- C10: a pure read-only SELECT that the keyword gate nevertheless rejects:
the statement begins with SELECT, the engine would leave the rows unchanged
if it ran, yet `query` raises the validation `ValueError` (the substring
test sees DROP inside the alias `dropped`) and executes nothing. -/
theorem select_false_positive_rejected :
    "SELECT".toList.isPrefixOf (sqlUpper aliasSelectSql) = true ∧
    (∀ rows, (sqliteExec rows aliasSelectSql).1 = rows) ∧
    ∀ s, query s aliasSelectSql =
      (.valueError ("Query contains forbidden keyword: DROP".toList), s, []) := by
  refine ⟨by decide, fun rows => ?_, fun s => ?_⟩
  · unfold sqliteExec
    rw [show "SELECT".toList.isPrefixOf (sqlUpper aliasSelectSql) = true from by decide]
    simp
  · unfold query
    rw [show validateQuery aliasSelectSql =
      some ("Query contains forbidden keyword: DROP".toList) from by decide]

/-- Filtering out the ids of the first `k` rows of a list strictly sorted by
id deletes exactly that prefix. -/
theorem filter_take_ids_eq_drop :
    ∀ (rows : List Row) (k : Nat), rows.Pairwise (fun a b => a.id < b.id) →
      rows.filter (fun r => ! ((rows.take k).map Row.id).contains r.id) = rows.drop k := by
  intro rows
  induction rows with
  | nil => intro k _; simp
  | cons r rs ih =>
    intro k h
    rcases List.pairwise_cons.mp h with ⟨hr, hrs⟩
    cases k with
    | zero => simp
    | succ k =>
      simp only [List.take_succ_cons, List.map_cons, List.drop_succ_cons, List.filter_cons]
      have hhead : (! ((r.id :: (rs.take k).map Row.id).contains r.id)) = false := by simp
      rw [hhead]
      have hcongr : rs.filter (fun x => ! ((r.id :: (rs.take k).map Row.id).contains x.id)) =
          rs.filter (fun x => ! (((rs.take k).map Row.id).contains x.id)) := by
        apply List.filter_congr
        intro x hx
        have hne : x.id ≠ r.id := (Nat.ne_of_gt (hr x hx))
        simp [hne]
      rw [hcongr, ih k hrs]
      simp

/-- C3: one run of the retention cleanup on a store whose rows are strictly
sorted by id (the store invariant — ids are assigned by AUTOINCREMENT in
insertion order): when the count is within `max_records` nothing is deleted
(in particular an empty store is a no-op); otherwise exactly
`count − max_records` rows are deleted, namely the prefix of smallest ids,
leaving precisely the `max_records` rows of largest ids, every one of which
exceeds every deleted id.  The write buffer is untouched either way. -/
theorem cleanup_retention (max_records : Nat) (s : DBState)
    (h : s.rows.Pairwise (fun a b => a.id < b.id)) :
    (s.rows.length ≤ max_records → _cleanup_old_records max_records s = s) ∧
    (max_records < s.rows.length →
      (_cleanup_old_records max_records s).rows =
        s.rows.drop (s.rows.length - max_records) ∧
      (_cleanup_old_records max_records s).rows.length = max_records ∧
      (_cleanup_old_records max_records s).write_buffer = s.write_buffer ∧
      ∀ a ∈ s.rows.take (s.rows.length - max_records),
        ∀ b ∈ (_cleanup_old_records max_records s).rows, a.id < b.id) := by
  have hids : List.Sorted (· ≤ ·) (s.rows.map Row.id) := by
    rw [List.Sorted, List.pairwise_map]
    exact h.imp (fun hab => Nat.le_of_lt hab)
  constructor
  · intro hle
    unfold _cleanup_old_records
    rw [if_pos hle]
  · intro hgt
    have hnle : ¬ (s.rows.length ≤ max_records) := Nat.not_le_of_lt hgt
    have hvict : (List.insertionSort (· ≤ ·) (s.rows.map Row.id)).take
        (s.rows.length - max_records) =
        (s.rows.take (s.rows.length - max_records)).map Row.id := by
      rw [List.Sorted.insertionSort_eq hids, List.map_take]
    have hrows : (_cleanup_old_records max_records s).rows =
        s.rows.drop (s.rows.length - max_records) := by
      unfold _cleanup_old_records
      rw [if_neg hnle]
      simp only
      rw [hvict]
      exact filter_take_ids_eq_drop s.rows (s.rows.length - max_records) h
    refine ⟨hrows, ?_, ?_, ?_⟩
    · rw [hrows, List.length_drop]
      omega
    · unfold _cleanup_old_records
      rw [if_neg hnle]
    · intro a ha b hb
      rw [hrows] at hb
      have hsplit : List.Pairwise (fun a b => a.id < b.id)
          (s.rows.take (s.rows.length - max_records) ++
           s.rows.drop (s.rows.length - max_records)) := by
        rw [List.take_append_drop]
        exact h
      exact (List.pairwise_append.mp hsplit).2.2 a ha b hb

/-- Witness for C3 on a concrete store of three rows with `max_records = 1`:
the two rows of smallest ids are deleted and only the largest id remains. -/
theorem cleanup_retention_witness :
    ((DBState.mk [⟨1, 10, "COM9", "a", "s"⟩, ⟨2, 11, "COM9", "b", "s"⟩,
        ⟨3, 12, "COM9", "c", "s"⟩] 4 [] 0).rows.Pairwise (fun a b => a.id < b.id)) ∧
    (1 < (DBState.mk [⟨1, 10, "COM9", "a", "s"⟩, ⟨2, 11, "COM9", "b", "s"⟩,
        ⟨3, 12, "COM9", "c", "s"⟩] 4 [] 0).rows.length) ∧
    (_cleanup_old_records 1 (DBState.mk [⟨1, 10, "COM9", "a", "s"⟩,
        ⟨2, 11, "COM9", "b", "s"⟩, ⟨3, 12, "COM9", "c", "s"⟩] 4 [] 0)).rows =
      [⟨3, 12, "COM9", "c", "s"⟩] := by
  refine ⟨by decide, by decide, ?_⟩
  have h := (cleanup_retention 1 (DBState.mk [⟨1, 10, "COM9", "a", "s"⟩,
      ⟨2, 11, "COM9", "b", "s"⟩, ⟨3, 12, "COM9", "c", "s"⟩] 4 [] 0) (by decide)).2
    (by decide)
  rw [h.1]
  decide

namespace SerialHandler

/-- Every `open()` attempt of the reconnection loop happens at an iteration
whose enumeration listed the target port, and every iteration (hence every
attempt) happens while `self.running` is still set. -/
theorem reconnect_checks_props (env : SerialEnv) (p : RetryParams) (port : String)
    (t0 : Nat) : ∀ (fuel now attempts : Nat),
    (∀ t ∈ (_attempt_reconnect env p port t0 fuel now attempts).openAttempts,
       port ∈ env.portsAt t) ∧
    (∀ t ∈ (_attempt_reconnect env p port t0 fuel now attempts).checks,
       env.runningAt t = true) ∧
    (∀ t ∈ (_attempt_reconnect env p port t0 fuel now attempts).openAttempts,
       env.runningAt t = true) := by
  intro fuel
  induction fuel with
  | zero =>
    intro now attempts
    simp [_attempt_reconnect]
  | succ fuel ih =>
    intro now attempts
    simp only [_attempt_reconnect]
    by_cases hrun : env.runningAt now = true
    · rw [if_pos hrun]
      by_cases hwin : now - t0 < p.rapid_retry_duration + p.slow_retry_duration
      · rw [if_pos hwin]
        set i := (if now - t0 < p.rapid_retry_duration then rapid_retry_interval
          else slow_retry_interval) with hi
        by_cases hmem : port ∈ env.portsAt now
        · rw [if_pos hmem]
          by_cases hok : env.connectOk now = true
          · rw [if_pos hok]
            refine ⟨?_, ?_, ?_⟩ <;> intro t ht <;>
              rw [List.mem_singleton.mp ht]
            exacts [hmem, hrun, hrun]
          · rw [if_neg hok]
            obtain ⟨ih1, ih2, ih3⟩ := ih (now + i) (attempts + 1)
            refine ⟨?_, ?_, ?_⟩ <;> intro t ht <;>
              rcases List.mem_cons.mp ht with rfl | ht2
            exacts [hmem, ih1 t ht2, hrun, ih2 t ht2, hrun, ih3 t ht2]
        · rw [if_neg hmem]
          obtain ⟨ih1, ih2, ih3⟩ := ih (now + i) (attempts + 1)
          refine ⟨fun t ht => ih1 t ht, ?_, fun t ht => ih3 t ht⟩
          intro t ht
          rcases List.mem_cons.mp ht with rfl | ht2
          · exact hrun
          · exact ih2 t ht2
      · rw [if_neg hwin]
        refine ⟨?_, ?_, ?_⟩ <;> intro t ht <;> cases ht
    · rw [if_neg hrun]
      refine ⟨?_, ?_, ?_⟩ <;> intro t ht <;> cases ht

/-- Either the schedule is empty or it starts at its start instant. -/
theorem scheduleTimes_head (p : RetryParams) (t0 : Nat) :
    ∀ fuel now, scheduleTimes p t0 fuel now = [] ∨
      (scheduleTimes p t0 fuel now).head? = some now := by
  intro fuel now
  cases fuel with
  | zero => exact Or.inl rfl
  | succ fuel =>
    simp only [scheduleTimes]
    by_cases hwin : now - t0 < p.rapid_retry_duration + p.slow_retry_duration
    · rw [if_pos hwin]; exact Or.inr rfl
    · rw [if_neg hwin]; exact Or.inl rfl

/-- Structure of the specification schedule: consecutive iteration times
differ by the rapid interval while inside the rapid window and by the slow
interval afterwards, and every iteration lies inside the two windows. -/
theorem scheduleTimes_chain (p : RetryParams) (t0 : Nat) :
    ∀ fuel now,
      List.Chain' (fun a b => b = a + (if a - t0 < p.rapid_retry_duration
        then rapid_retry_interval else slow_retry_interval))
        (scheduleTimes p t0 fuel now) ∧
      (∀ t ∈ scheduleTimes p t0 fuel now,
        t - t0 < p.rapid_retry_duration + p.slow_retry_duration) := by
  intro fuel
  induction fuel with
  | zero => intro now; exact ⟨List.chain'_nil, by intro t ht; cases ht⟩
  | succ fuel ih =>
    intro now
    simp only [scheduleTimes]
    by_cases hwin : now - t0 < p.rapid_retry_duration + p.slow_retry_duration
    · rw [if_pos hwin]
      set i := (if now - t0 < p.rapid_retry_duration then rapid_retry_interval
        else slow_retry_interval) with hi
      obtain ⟨ihc, ihb⟩ := ih (now + i)
      constructor
      · apply List.chain'_cons'.mpr
        refine ⟨?_, ihc⟩
        intro y hy
        rcases scheduleTimes_head p t0 fuel (now + i) with hnil | hhd
        · rw [hnil] at hy; cases hy
        · rw [hhd] at hy
          simp only [Option.mem_some_iff] at hy
          subst hy
          simp [hi]
      · intro t ht
        rcases List.mem_cons.mp ht with rfl | ht2
        · exact hwin
        · exact ihb t ht2
    · rw [if_neg hwin]
      exact ⟨List.chain'_nil, by intro t ht; cases ht⟩

/-- When the daemon keeps running and no open ever succeeds, the
reconnection loop runs exactly the specification schedule: its iterations
are the schedule times, and with fuel to spare it ends in
`CONNECTION_FAILED_PERMANENT`, reporting the elapsed time at the instant
both windows are exhausted and the number of attempts made, at that same
exit instant. -/
theorem reconnect_exhaust (env : SerialEnv) (p : RetryParams) (port : String)
    (t0 : Nat) (hrun : ∀ t, env.runningAt t = true)
    (hfail : ∀ t, port ∈ env.portsAt t → env.connectOk t = false) :
    ∀ (fuel now attempts : Nat),
      (scheduleTimes p t0 fuel now).length < fuel →
      (_attempt_reconnect env p port t0 fuel now attempts).checks =
        scheduleTimes p t0 fuel now ∧
      (_attempt_reconnect env p port t0 fuel now attempts).outcome =
        .failedPermanent (scheduleEnd p t0 fuel now - t0)
          (attempts + (scheduleTimes p t0 fuel now).length) ∧
      (_attempt_reconnect env p port t0 fuel now attempts).exitTime =
        scheduleEnd p t0 fuel now := by
  intro fuel
  induction fuel with
  | zero =>
    intro now attempts h
    exact absurd h (Nat.not_lt_zero _)
  | succ fuel ih =>
    intro now attempts hlen
    by_cases hwin : now - t0 < p.rapid_retry_duration + p.slow_retry_duration
    · set i := (if now - t0 < p.rapid_retry_duration then rapid_retry_interval
        else slow_retry_interval) with hi
      have hsch : scheduleTimes p t0 (fuel + 1) now =
          now :: scheduleTimes p t0 fuel (now + i) := by
        simp only [scheduleTimes]
        rw [if_pos hwin]
      have hend : scheduleEnd p t0 (fuel + 1) now = scheduleEnd p t0 fuel (now + i) := by
        simp only [scheduleEnd]
        rw [if_pos hwin]
      rw [hsch] at hlen
      have hlen' : (scheduleTimes p t0 fuel (now + i)).length < fuel := by
        simp only [List.length_cons] at hlen
        omega
      obtain ⟨ihc, iho, ihe⟩ := ih (now + i) (attempts + 1) hlen'
      rw [hsch, hend]
      simp only [_attempt_reconnect]
      rw [if_pos (hrun now), if_pos hwin, ← hi]
      have harith : attempts + 1 + (scheduleTimes p t0 fuel (now + i)).length =
          attempts + ((scheduleTimes p t0 fuel (now + i)).length + 1) := by omega
      by_cases hmem : port ∈ env.portsAt now
      · have hok : ¬ (env.connectOk now = true) := by
          rw [hfail now hmem]
          exact Bool.false_ne_true
        rw [if_pos hmem, if_neg hok]
        refine ⟨?_, ?_, ?_⟩
        · show now :: (_attempt_reconnect env p port t0 fuel (now + i)
            (attempts + 1)).checks = _
          rw [ihc]
        · show (_attempt_reconnect env p port t0 fuel (now + i)
            (attempts + 1)).outcome = _
          rw [iho, List.length_cons, harith]
        · exact ihe
      · rw [if_neg hmem]
        refine ⟨?_, ?_, ?_⟩
        · show now :: (_attempt_reconnect env p port t0 fuel (now + i)
            (attempts + 1)).checks = _
          rw [ihc]
        · show (_attempt_reconnect env p port t0 fuel (now + i)
            (attempts + 1)).outcome = _
          rw [iho, List.length_cons, harith]
        · exact ihe
    · have hsch : scheduleTimes p t0 (fuel + 1) now = [] := by
        simp only [scheduleTimes]
        rw [if_neg hwin]
      have hend : scheduleEnd p t0 (fuel + 1) now = now := by
        simp only [scheduleEnd]
        rw [if_neg hwin]
      rw [hsch, hend]
      simp only [_attempt_reconnect]
      rw [if_pos (hrun now), if_neg hwin]
      exact ⟨rfl, by simp, rfl⟩

/-- A restored outcome can only arise from an iteration, inside the two
windows, at which the daemon was running, the target port was enumerated
and the open succeeded; the reported elapsed time is the elapsed time of
that iteration. -/
theorem reconnect_restored_char (env : SerialEnv) (p : RetryParams) (port : String)
    (t0 : Nat) :
    ∀ (fuel now attempts e a : Nat),
      (_attempt_reconnect env p port t0 fuel now attempts).outcome = .restored e a →
      ∃ t, env.runningAt t = true ∧ port ∈ env.portsAt t ∧ env.connectOk t = true ∧
        e = t - t0 ∧ t - t0 < p.rapid_retry_duration + p.slow_retry_duration := by
  intro fuel
  induction fuel with
  | zero =>
    intro now attempts e a h
    simp only [_attempt_reconnect] at h
    cases h
  | succ fuel ih =>
    intro now attempts e a h
    simp only [_attempt_reconnect] at h
    by_cases hrun : env.runningAt now = true
    · rw [if_pos hrun] at h
      by_cases hwin : now - t0 < p.rapid_retry_duration + p.slow_retry_duration
      · rw [if_pos hwin] at h
        by_cases hmem : port ∈ env.portsAt now
        · rw [if_pos hmem] at h
          by_cases hok : env.connectOk now = true
          · rw [if_pos hok] at h
            refine ⟨now, hrun, hmem, hok, ?_, hwin⟩
            cases h
            rfl
          · rw [if_neg hok] at h
            exact ih _ _ e a h
        · rw [if_neg hmem] at h
          exact ih _ _ e a h
      · rw [if_neg hwin] at h
        cases h
    · rw [if_neg hrun] at h
      cases h

/-- When `self.running` is cleared at instant `c`, the reconnection loop
exits at most one slow retry interval after `max` of its start and `c`:
the plain `time.sleep` between iterations is not cancellable, so the loop
can observe the cleared flag only at its next iteration. -/
theorem reconnect_exit_bound (env : SerialEnv) (p : RetryParams) (port : String)
    (t0 c : Nat) (hc : ∀ t, env.runningAt t = decide (t < c)) :
    ∀ (fuel now attempts : Nat),
      (_attempt_reconnect env p port t0 fuel now attempts).exitTime ≤
        max now (c + slow_retry_interval) := by
  intro fuel
  induction fuel with
  | zero =>
    intro now attempts
    exact Nat.le_max_left _ _
  | succ fuel ih =>
    intro now attempts
    simp only [_attempt_reconnect]
    by_cases hrun : env.runningAt now = true
    · have hnow : now < c := by
        have h := hc now
        rw [hrun] at h
        exact of_decide_eq_true h.symm
      rw [if_pos hrun]
      by_cases hwin : now - t0 < p.rapid_retry_duration + p.slow_retry_duration
      · rw [if_pos hwin]
        set i := (if now - t0 < p.rapid_retry_duration then rapid_retry_interval
          else slow_retry_interval) with hi
        have hile : i ≤ slow_retry_interval := by
          rw [hi]; split_ifs
          · decide
          · exact Nat.le_refl _
        have hstep : (_attempt_reconnect env p port t0 fuel (now + i)
            (attempts + 1)).exitTime ≤ max now (c + slow_retry_interval) := by
          refine Nat.le_trans (ih (now + i) (attempts + 1)) ?_
          have h1 : now + i ≤ c + slow_retry_interval := by omega
          exact Nat.max_le.mpr ⟨Nat.le_trans h1 (Nat.le_max_right _ _),
            Nat.le_max_right _ _⟩
        by_cases hmem : port ∈ env.portsAt now
        · by_cases hok : env.connectOk now = true
          · rw [if_pos hmem, if_pos hok]
            exact Nat.le_max_left _ _
          · rw [if_pos hmem, if_neg hok]
            exact hstep
        · rw [if_neg hmem]
          exact hstep
      · rw [if_neg hwin]
        exact Nat.le_max_left _ _
    · rw [if_neg hrun]
      exact Nat.le_max_left _ _

end SerialHandler

namespace DatabaseManager

/-- The retention thread's wait is cancellable: once the stop event is set
at instant `c`, the loop exits exactly at `max now c` (immediately when the
event was already set, at the set instant when it arrives during a wait),
and every cleanup pass it ever ran happened strictly before `c`. -/
theorem cleanup_task_exit (c interval : Nat) :
    ∀ fuel now, c ≤ now + fuel * interval →
      (_cleanup_task (some c) interval fuel now).1 = max now c ∧
      ∀ t ∈ (_cleanup_task (some c) interval fuel now).2, t < c := by
  intro fuel
  induction fuel with
  | zero =>
    intro now hfuel
    simp only [Nat.zero_mul, Nat.add_zero] at hfuel
    simp only [_cleanup_task]
    exact ⟨(Nat.max_eq_left hfuel).symm, by intro t ht; cases ht⟩
  | succ fuel ih =>
    intro now hfuel
    simp only [_cleanup_task]
    by_cases hset : c ≤ now
    · rw [if_pos (by simpa [isSetAt] using hset)]
      exact ⟨(Nat.max_eq_left hset).symm, by intro t ht; cases ht⟩
    · rw [if_neg (by simpa [isSetAt] using hset)]
      simp only [eventWait]
      by_cases hw : c ≤ now + interval
      · rw [if_pos hw]
        exact ⟨rfl, by intro t ht; cases ht⟩
      · rw [if_neg hw, if_neg Bool.false_ne_true]
        have hfuel' : c ≤ (now + interval) + fuel * interval := by
          rw [Nat.succ_mul] at hfuel
          omega
        obtain ⟨ih1, ih2⟩ := ih (now + interval) hfuel'
        have hnc : now < c := Nat.lt_of_not_le hset
        have hnic : now + interval < c := Nat.lt_of_not_le hw
        constructor
        · simp only
          rw [ih1, Nat.max_eq_right (Nat.le_of_lt hnic),
            Nat.max_eq_right (Nat.le_of_lt hnc)]
        · intro t ht
          rcases List.mem_cons.mp ht with rfl | ht2
          · exact hnic
          · exact ih2 t ht2

end DatabaseManager

section ClaimC5C6

open SerialHandler

/-- C5: the reconnection procedure entered at `t0` follows the two-stage
strategy — the retry cadence is 2 s (20 ds) while `now − t0` is inside
`rapid_retry_duration` and 5 s (50 ds) while it is inside
`rapid_retry_duration + slow_retry_duration`, every `open()` is attempted
only at an iteration whose device enumeration listed the target port, a
restored outcome reports the elapsed time of the successful iteration (the
`CONNECTION_RESTORED` payload) and arises only from a successful open inside
the windows, and when no open ever succeeds the loop runs exactly the
two-stage schedule and ends with `CONNECTION_FAILED_PERMANENT`, carrying the
total elapsed time and the attempt count, after which the reader
terminates. -/
theorem reconnect_two_stage (env : SerialEnv) (p : RetryParams) (port : String)
    (t0 fuel : Nat) (hrun : ∀ t, env.runningAt t = true) :
    rapid_retry_interval = 20 ∧ slow_retry_interval = 50 ∧
    (∀ t ∈ (_attempt_reconnect env p port t0 fuel t0 0).openAttempts,
      port ∈ env.portsAt t) ∧
    List.Chain' (fun a b => b = a + (if a - t0 < p.rapid_retry_duration
      then rapid_retry_interval else slow_retry_interval))
      (scheduleTimes p t0 fuel t0) ∧
    (∀ t ∈ scheduleTimes p t0 fuel t0,
      t - t0 < p.rapid_retry_duration + p.slow_retry_duration) ∧
    ((∀ t, port ∈ env.portsAt t → env.connectOk t = false) →
      (scheduleTimes p t0 fuel t0).length < fuel →
      (_attempt_reconnect env p port t0 fuel t0 0).checks =
        scheduleTimes p t0 fuel t0 ∧
      (_attempt_reconnect env p port t0 fuel t0 0).outcome =
        .failedPermanent (scheduleEnd p t0 fuel t0 - t0)
          (scheduleTimes p t0 fuel t0).length ∧
      (_attempt_reconnect env p port t0 fuel t0 0).exitTime =
        scheduleEnd p t0 fuel t0) ∧
    (∀ e a, (_attempt_reconnect env p port t0 fuel t0 0).outcome = .restored e a →
      ∃ t, port ∈ env.portsAt t ∧ env.connectOk t = true ∧ e = t - t0 ∧
        t - t0 < p.rapid_retry_duration + p.slow_retry_duration) := by
  refine ⟨rfl, rfl, (reconnect_checks_props env p port t0 fuel t0 0).1,
    (scheduleTimes_chain p t0 fuel t0).1, (scheduleTimes_chain p t0 fuel t0).2, ?_, ?_⟩
  · intro hfail hlen
    have h := reconnect_exhaust env p port t0 hrun hfail fuel t0 0 hlen
    refine ⟨h.1, ?_, h.2.2⟩
    rw [h.2.1, Nat.zero_add]
  · intro e a h
    obtain ⟨t, _, hmem, hok, he, hwin⟩ :=
      reconnect_restored_char env p port t0 fuel t0 0 e a h
    exact ⟨t, hmem, hok, he, hwin⟩

/-- Witness for C5 with a 4 s rapid window and a 6 s slow window on a host
where the port never appears: the loop runs the schedule 0, 20, 40, 90
(deciseconds) and gives up permanently. -/
theorem reconnect_two_stage_witness :
    (∀ t, (SerialEnv.mk (fun _ => true) (fun _ => []) (fun _ => false)).runningAt t
      = true) ∧
    (scheduleTimes ⟨40, 60⟩ 0 10 0).length < 10 ∧
    scheduleTimes ⟨40, 60⟩ 0 10 0 = [0, 20, 40, 90] ∧
    (_attempt_reconnect ⟨fun _ => true, fun _ => [], fun _ => false⟩ ⟨40, 60⟩
      "COM9" 0 10 0 0).checks = scheduleTimes ⟨40, 60⟩ 0 10 0 ∧
    (_attempt_reconnect ⟨fun _ => true, fun _ => [], fun _ => false⟩ ⟨40, 60⟩
      "COM9" 0 10 0 0).outcome =
      .failedPermanent (scheduleEnd ⟨40, 60⟩ 0 10 0 - 0)
        (scheduleTimes ⟨40, 60⟩ 0 10 0).length := by
  have hrun : ∀ t, (SerialEnv.mk (fun _ => true) (fun _ => []) (fun _ => false)).runningAt t
      = true := fun _ => rfl
  have h := (reconnect_two_stage ⟨fun _ => true, fun _ => [], fun _ => false⟩
    ⟨40, 60⟩ "COM9" 0 10 hrun).2.2.2.2.2.1
    (fun t ht => absurd ht (List.not_mem_nil _)) (by decide)
  exact ⟨hrun, by decide, by decide, h.1, h.2.1⟩

/-- C6 counterexample: with the default windows, `running` cleared at
t = 301 ds (just after the slow-stage iteration at 300 ds began its 5 s
sleep) makes the reconnection loop exit only at 350 ds — 4.9 s after the
cancellation, beyond the claimed ~2 s — because the inter-retry sleep is a
plain `time.sleep`, observed only at the next loop iteration.  (No further
open is attempted after the cancellation.) -/
theorem shutdown_slow_exit_cex :
    (_attempt_reconnect (cancelEnv 301) defaultRetryParams "COM9" 0 20 0 0).outcome
      = .aborted ∧
    (_attempt_reconnect (cancelEnv 301) defaultRetryParams "COM9" 0 20 0 0).exitTime
      = 350 ∧
    ¬ ((_attempt_reconnect (cancelEnv 301) defaultRetryParams "COM9" 0 20 0 0).exitTime
      ≤ 301 + 20) ∧
    (_attempt_reconnect (cancelEnv 301) defaultRetryParams "COM9" 0 20 0 0).openAttempts
      = [] := by
  refine ⟨by decide, by decide, by decide, by decide⟩

/-- C6 as amended: both loops check the cancellation at the top of every
iteration and do no further work after it is set at instant `c` — the
retention thread's cancellable wait makes it exit exactly at `max now c`
with every cleanup pass strictly before `c`, while the reconnection loop
performs every device check and open attempt strictly before `c` but, its
inter-retry sleep being uncancellable, is only guaranteed to exit within
one slow retry interval (5 s, not ~2 s) after `max` of its start time
and `c`. -/
theorem shutdown_cancellation (env : SerialEnv) (p : RetryParams) (port : String)
    (t0 c interval fuel now attempts : Nat)
    (hc : ∀ t, env.runningAt t = decide (t < c))
    (hfuel : c ≤ now + fuel * interval) :
    ((_cleanup_task (some c) interval fuel now).1 = max now c ∧
      ∀ t ∈ (_cleanup_task (some c) interval fuel now).2, t < c) ∧
    (∀ t ∈ (_attempt_reconnect env p port t0 fuel now attempts).checks, t < c) ∧
    (∀ t ∈ (_attempt_reconnect env p port t0 fuel now attempts).openAttempts, t < c) ∧
    (_attempt_reconnect env p port t0 fuel now attempts).exitTime ≤
      max now (c + slow_retry_interval) := by
  refine ⟨cleanup_task_exit c interval fuel now hfuel, ?_, ?_,
    reconnect_exit_bound env p port t0 c hc fuel now attempts⟩
  · intro t ht
    have h := (reconnect_checks_props env p port t0 fuel now attempts).2.1 t ht
    rw [hc t] at h
    exact of_decide_eq_true h
  · intro t ht
    have h := (reconnect_checks_props env p port t0 fuel now attempts).2.2 t ht
    rw [hc t] at h
    exact of_decide_eq_true h

/-- Witness for C6 as amended, at a cancellation instant of 301 ds with the
default 60 s retention interval and default retry windows. -/
theorem shutdown_cancellation_witness :
    (∀ t, (cancelEnv 301).runningAt t = decide (t < 301)) ∧ (301 ≤ 0 + 20 * 600) ∧
    ((_cleanup_task (some 301) 600 20 0).1 = max 0 301 ∧
      ∀ t ∈ (_cleanup_task (some 301) 600 20 0).2, t < 301) ∧
    (∀ t ∈ (_attempt_reconnect (cancelEnv 301) defaultRetryParams
      "COM9" 0 20 0 0).checks, t < 301) ∧
    (∀ t ∈ (_attempt_reconnect (cancelEnv 301) defaultRetryParams
      "COM9" 0 20 0 0).openAttempts, t < 301) ∧
    (_attempt_reconnect (cancelEnv 301) defaultRetryParams "COM9" 0 20 0 0).exitTime ≤
      max 0 (301 + slow_retry_interval) := by
  have h := shutdown_cancellation (cancelEnv 301) defaultRetryParams "COM9"
    0 301 600 20 0 0 (fun t => rfl) (by decide)
  exact ⟨fun t => rfl, by decide, h.1, h.2.1, h.2.2.1, h.2.2.2⟩

end ClaimC5C6

/-- C2 counterexample: a buffered `insert` at time 0 followed by an
`insert_immediate` at time 5 and a flush at time 20 leaves the store with a
row of smaller id (the immediate one, id 1, timestamp 5) and a row of
larger id (the flushed buffered one, id 2, timestamp 0) whose timestamps
are out of order. -/
theorem immediate_vs_buffered_timestamp_cex :
    ∃ a ∈ (runOps dbInit [DBOp.ins 0 0 "COM9" "a" "s",
        DBOp.insImm 5 "SYSTEM" "marker" "s", DBOp.fl 20]).rows,
      ∃ b ∈ (runOps dbInit [DBOp.ins 0 0 "COM9" "a" "s",
        DBOp.insImm 5 "SYSTEM" "marker" "s", DBOp.fl 20]).rows,
        a.id < b.id ∧ ¬ (a.timestamp ≤ b.timestamp) := by decide

/-- C2 as amended: along any well-timed trace of buffered inserts, immediate
inserts and flushes starting from a fresh store, provided every immediate
insert happens while the write buffer is empty (so the two write paths are
not interleaved against pending rows), ids and timestamps of the persisted
rows are ordered consistently: `a.id < b.id` implies
`a.timestamp ≤ b.timestamp`. -/
theorem timestamps_monotone_without_interleaving (ops : List DBOp)
    (hg : GoodTrace 0 dbInit ops) :
    ∀ a ∈ (runOps dbInit ops).rows, ∀ b ∈ (runOps dbInit ops).rows,
      a.id < b.id → a.timestamp ≤ b.timestamp := by
  have hinv : Inv 0 dbInit := by
    refine ⟨List.Pairwise.nil, ?_, List.Pairwise.nil, ?_, ?_⟩ <;> simp [dbInit]
  exact pairwise_id_timestamp (goodTrace_inv hg hinv)

/-- Witness for C2 as amended, on a trace with an immediate marker written
while the buffer is empty, then a buffered line, then a flush. -/
theorem timestamps_monotone_without_interleaving_witness :
    GoodTrace 0 dbInit [DBOp.insImm 3 "SYSTEM" "m" "s",
        DBOp.ins 5 5 "COM9" "a" "s", DBOp.fl 20] ∧
    ∀ a ∈ (runOps dbInit [DBOp.insImm 3 "SYSTEM" "m" "s",
        DBOp.ins 5 5 "COM9" "a" "s", DBOp.fl 20]).rows,
      ∀ b ∈ (runOps dbInit [DBOp.insImm 3 "SYSTEM" "m" "s",
        DBOp.ins 5 5 "COM9" "a" "s", DBOp.fl 20]).rows,
        a.id < b.id → a.timestamp ≤ b.timestamp := by
  have hg : GoodTrace 0 dbInit [DBOp.insImm 3 "SYSTEM" "m" "s",
      DBOp.ins 5 5 "COM9" "a" "s", DBOp.fl 20] :=
    GoodTrace.imm 0 3 "SYSTEM" "m" "s" dbInit _ (by decide) rfl
      (GoodTrace.ins 3 5 "COM9" "a" "s" _ _ (by decide)
        (GoodTrace.fl 5 20 _ [] (by decide) (GoodTrace.nil 20 _)))
  exact ⟨hg, timestamps_monotone_without_interleaving _ hg⟩

/-- C7 counterexample: the table of the schema is not named `captured`, and
the specification statement `SELECT COUNT(*) FROM captured` passes the
validation gate but fails in the engine with a missing-table error instead
of returning an integer. -/
theorem count_captured_fails :
    tableName ≠ "captured".toList ∧
    query dbInit "SELECT COUNT(*) FROM captured".toList =
      (.sqlError ("no such table: captured".toList), dbInit,
        ["SELECT COUNT(*) FROM captured".toList]) := by
  refine ⟨by decide, ?_⟩
  unfold query
  rw [show validateQuery "SELECT COUNT(*) FROM captured".toList = none from by decide]
  rfl

/-- C7 as amended: the store keeps one table named `serial_data` whose
columns mirror CapturedLine, with the four indices on `timestamp`, `port`,
`session_id` and `(timestamp, port)`, and `SELECT COUNT(*) FROM serial_data`
succeeds on every store state, returning the integer row count. -/
theorem schema_and_count_query (s : DBState) :
    tableName = "serial_data".toList ∧
    schemaColumns = ["id", "timestamp", "port", "data", "session_id"] ∧
    schemaIndexes.map IndexDef.columns =
      [["timestamp"], ["port"], ["session_id"], ["timestamp", "port"]] ∧
    query s "SELECT COUNT(*) FROM serial_data".toList =
      (.results [s.rows.length], s, ["SELECT COUNT(*) FROM serial_data".toList]) := by
  refine ⟨rfl, rfl, rfl, ?_⟩
  unfold query
  rw [show validateQuery "SELECT COUNT(*) FROM serial_data".toList = none from by decide]
  rfl

end SerialTool
